import Mathlib

/-!
Shallow embedding of the CLSP player session core: the Iov session
(changeSrc, stop, the connection-change handler, the first-frame
rendezvous) and the IovCollection registry (create, has, remove,
destroy, retry-configuration read), together with proofs of the
specified properties.
-/

/-- Error kinds observable from the embedded operations.  `typeError` is a
JavaScript TypeError raised by a property access on a nulled object. -/
inductive JsError where
  | typeError
  | missingUrl
  | createError
  | noPlayerId
  | addNoId
  | addDuplicateId
  | alreadyDestroyed
deriving DecidableEq, Repr

/-- A stream configuration.  The claims only compare configurations for
equality, so the parse result of a url is kept abstract as `fromUrl`. -/
inductive StreamConfig where
  | fromUrl (url : String)
deriving DecidableEq, Repr

/-- The argument accepted by `Iov.changeSrc`: absent (falsy), a url
string, or an already-built stream configuration. -/
inductive SrcArg where
  | missing
  | urlStr (s : String)
  | cfg (c : StreamConfig)
deriving DecidableEq, Repr

/-- JavaScript truthiness test on the `changeSrc` argument: `undefined`,
`null` and the empty string are falsy. -/
def SrcArg.isFalsy : SrcArg → Bool
  | .missing => true
  | .urlStr s => s == ""
  | .cfg _ => false

/-- `StreamConfiguration.isStreamConfiguration(url) ? url :
StreamConfiguration.fromUrl(url)` from the source. -/
def SrcArg.toConfig : SrcArg → StreamConfig
  | .missing => StreamConfig.fromUrl ""
  | .urlStr s => StreamConfig.fromUrl s
  | .cfg c => c

/-- Default for `CONNECTION_CHANGE_PLAY_DELAY`, set in the Iov
constructor. -/
def DEFAULT_CONNECTION_CHANGE_PLAY_DELAY : Nat := 5

/-- The per-session state of an Iov that the claims observe. -/
structure IovState where
  isDestroyed : Bool
  isDestroyComplete : Bool
  isStopping : Bool
  streamConfiguration : Option StreamConfig
  pendingChangeSrcStreamConfiguration : Option StreamConfig
  connectionChangePlayDelay : Nat
deriving DecidableEq, Repr

/-- A freshly constructed Iov (all flags false, no configuration,
`CONNECTION_CHANGE_PLAY_DELAY` at its default). -/
def iovFresh : IovState :=
  { isDestroyed := false
    isDestroyComplete := false
    isStopping := false
    streamConfiguration := none
    pendingChangeSrcStreamConfiguration := none
    connectionChangePlayDelay := DEFAULT_CONNECTION_CHANGE_PLAY_DELAY }

/-- Outcome of `this.iovPlayerCollection.create(...)` as observed by
`changeSrc`: it may throw, or return an id which may be falsy. -/
inductive CreateOutcome where
  | throws
  | ok (id : Option Nat)
deriving DecidableEq, Repr

/-- How the synchronous part of `changeSrc` ends: an early successful
return, a thrown error, or suspension awaiting the first-frame event of
the player whose id was captured. -/
inductive ChangeSrcResult where
  | resolvedEarly
  | awaitingFirstFrame (playerId : Nat)
  | threw (e : JsError)
deriving DecidableEq, Repr

/-- The full observation of one `changeSrc` call up to its suspension
point: resulting session state, how it ended, and whether
`iovPlayerCollection.create` was invoked. -/
structure ChangeSrcOutcome where
  state : IovState
  result : ChangeSrcResult
  createCalled : Bool
deriving DecidableEq, Repr

/-- `Iov.changeSrc` up to the first-frame rendezvous, translated from
the source: return early if destroyed; throw if the argument is falsy;
commit `streamConfiguration`; return early if the document is hidden;
create a player through the collection (rethrow its error, throw if the
returned id is falsy); otherwise suspend awaiting the first frame. -/
def Iov.changeSrc (s : IovState) (arg : SrcArg) (hidden : Bool)
    (co : CreateOutcome) : ChangeSrcOutcome :=
  if s.isDestroyed then
    { state := s, result := .resolvedEarly, createCalled := false }
  else if SrcArg.isFalsy arg then
    { state := s, result := .threw .missingUrl, createCalled := false }
  else
    let s1 := { s with streamConfiguration := some (SrcArg.toConfig arg) }
    if hidden then
      { state := s1, result := .resolvedEarly, createCalled := false }
    else
      match co with
      | .throws =>
          { state := s1, result := .threw .createError, createCalled := true }
      | .ok none =>
          { state := s1, result := .threw .noPlayerId, createCalled := true }
      | .ok (some pid) =>
          if pid = 0 then
            { state := s1, result := .threw .noPlayerId, createCalled := true }
          else
            { state := s1, result := .awaitingFirstFrame pid, createCalled := true }

/-- A FIRST_FRAME_SHOWN event as seen by the promise handler inside
`changeSrc`: the player id carried in the payload, and the value of
`this.isDestroyed` observed after the SHOW_NEXT_VIDEO_DELAY sleep. -/
structure FFEvent where
  id : Nat
  destroyedAtDelivery : Bool
deriving DecidableEq, Repr

/-- State of the promise returned by `changeSrc`. -/
inductive PromiseState where
  | pending
  | resolved
  | rejected
deriving DecidableEq, Repr

/-- One delivery of FIRST_FRAME_SHOWN to the handler registered by
`changeSrc` for captured id `capturedId`: a payload with a different id
returns without resolving or rejecting; a matching payload resolves, or
rejects when the session was destroyed during the delay.  Settling a
settled promise has no effect. -/
def firstFrameStep (capturedId : Nat) (p : PromiseState) (e : FFEvent) :
    PromiseState :=
  match p with
  | .pending =>
      if e.id ≠ capturedId then .pending
      else if e.destroyedAtDelivery then .rejected
      else .resolved
  | settled => settled

/-- The promise state after a sequence of FIRST_FRAME_SHOWN deliveries. -/
def firstFrameRun (capturedId : Nat) (events : List FFEvent) : PromiseState :=
  events.foldl (firstFrameStep capturedId) .pending

/-- Overall observation of a `changeSrc` call after a sequence of
FIRST_FRAME_SHOWN deliveries. -/
inductive ChangeSrcFinal where
  | earlyReturn
  | errorThrown (e : JsError)
  | stillPending
  | resolvedAfterFrame
  | rejectedAfterFrame
deriving DecidableEq, Repr

/-- `changeSrc` composed with the first-frame rendezvous: run the
synchronous part, then feed the delivered events to the registered
handler. -/
def Iov.changeSrcAwait (s : IovState) (arg : SrcArg) (hidden : Bool)
    (co : CreateOutcome) (events : List FFEvent) : ChangeSrcFinal :=
  match (Iov.changeSrc s arg hidden co).result with
  | .resolvedEarly => .earlyReturn
  | .threw e => .errorThrown e
  | .awaitingFirstFrame pid =>
      match firstFrameRun pid events with
      | .pending => .stillPending
      | .resolved => .resolvedAfterFrame
      | .rejected => .rejectedAfterFrame

/-- The actions awaited by the `onConnectionChange` handler, in order. -/
inductive ConnAction where
  | stopCall
  | sleepCall (seconds : Nat)
  | restartCall
deriving DecidableEq, Repr

/-- `Iov.onConnectionChange`, translated from the source: when offline,
await `stop()` and return; when online, await `restart()`.  (Errors from
both calls are caught and logged.) -/
def Iov.onConnectionChange (s : IovState) (online : Bool) : List ConnAction :=
  if online = false then
    [ConnAction.stopCall]
  else
    [ConnAction.restartCall]

/-- `IovCollection.#retry` reads the stream configuration to replay as
`iov.pendingChangeSrcStreamConfiguration || iov.streamConfiguration`. -/
def IovCollection.retryConfig (s : IovState) : Option StreamConfig :=
  match s.pendingChangeSrcStreamConfiguration with
  | some c => some c
  | none => s.streamConfiguration

/-- The guarded head of `Iov.stop`, translated from the source: throw if
destroy has completed; return early if already stopping; otherwise set
`isStopping` before awaiting `removeAll`.  The boolean records whether
the body was entered. -/
def Iov.stopBegin (s : IovState) : IovState × Bool :=
  if s.isDestroyComplete then (s, false)
  else if s.isStopping then (s, false)
  else ({ s with isStopping := true }, true)

/-- The `finally` block of `Iov.stop`: clear `isStopping`. -/
def Iov.stopEnd (s : IovState) : IovState :=
  { s with isStopping := false }

/-- Modelled from the spec: the Destroyable base class that sets the
destruction flags is not among the provided sources (only its `_destroy`
overrides are); per the single-fire destroy protocol of the spec,
`destroy()` marks `isDestroyed` when destruction begins. -/
def Destroyable.destroyBegin (s : IovState) : IovState :=
  if s.isDestroyed then s else { s with isDestroyed := true }

/-- Modelled from the spec: completion of the Destroyable destroy
protocol marks `isDestroyComplete`. -/
def Destroyable.destroyEnd (s : IovState) : IovState :=
  { s with isDestroyComplete := true }

/-- The primitive state mutations a session undergoes, as a labelled
step alphabet: the two halves of `stop`, the two halves of `destroy`,
and a `changeSrc` call. -/
inductive SessOp where
  | stopBeginOp
  | stopEndOp
  | destroyBeginOp
  | destroyEndOp
  | changeSrcOp (arg : SrcArg) (hidden : Bool) (co : CreateOutcome)
deriving DecidableEq, Repr

/-- Apply one session step to a session state. -/
def applySessOp (s : IovState) (op : SessOp) : IovState :=
  match op with
  | .stopBeginOp => (Iov.stopBegin s).1
  | .stopEndOp => Iov.stopEnd s
  | .destroyBeginOp => Destroyable.destroyBegin s
  | .destroyEndOp => Destroyable.destroyEnd s
  | .changeSrcOp arg hidden co => (Iov.changeSrc s arg hidden co).state

/-- The state of the IovCollection registry.  `counter` is the
module-level `totalIovCount`; `iovs` and `pendingRemoval` hold the
session ids present as keys, and become `none` when `destroy()` nulls
them. -/
structure CollectionState where
  counter : Nat
  iovs : Option (List Nat)
  pendingRemoval : Option (List Nat)
  isDestroyed : Bool
  isDestroyComplete : Bool
deriving DecidableEq, Repr

/-- The registry as constructed: empty maps, counter untouched, flags
false. -/
def initialCollection : CollectionState :=
  { counter := 0
    iovs := some []
    pendingRemoval := some []
    isDestroyed := false
    isDestroyComplete := false }

/-- `IovCollection.has`, translated from the source: false on a falsy
id; false when the id is marked in `pendingRemoval`; otherwise whether
the id is a key of `iovs`.  A property read on a nulled map raises a
TypeError. -/
def IovCollection.has (st : CollectionState) (id : Nat) :
    Except JsError Bool :=
  if id = 0 then .ok false
  else
    match st.pendingRemoval with
    | none => .error .typeError
    | some pr =>
        if id ∈ pr then .ok false
        else
          match st.iovs with
          | none => .error .typeError
          | some m => .ok (decide (id ∈ m))

/-- `IovCollection.create` followed by `add`, translated from the
source: increment the module-level counter (this sticks even when a
later step throws), construct the Iov with the new id, then `add` it:
throw on a falsy id, throw on a previously-used id, then store it in
`iovs` (a TypeError when `iovs` has been nulled). -/
def IovCollection.create (st : CollectionState) :
    CollectionState × Except JsError Nat :=
  let id := st.counter + 1
  let st1 : CollectionState := { st with counter := id }
  if id = 0 then (st1, .error .addNoId)
  else
    match IovCollection.has st1 id with
    | .error e => (st1, .error e)
    | .ok true => (st1, .error .addDuplicateId)
    | .ok false =>
        match st1.iovs with
        | none => (st1, .error .typeError)
        | some m => ({ st1 with iovs := some (m ++ [id]) }, .ok id)

/-- First step of the present-id branch of `remove`:
`this.pendingRemoval[id] = true`. -/
def IovCollection.removeMark (st : CollectionState) (id : Nat) :
    CollectionState :=
  { st with pendingRemoval := Option.map (fun pr => pr ++ [id]) st.pendingRemoval }

/-- Second step of the present-id branch of `remove`:
`delete this.iovs[id]`. -/
def IovCollection.removeDelete (st : CollectionState) (id : Nat) :
    CollectionState :=
  { st with iovs := Option.map (fun m => m.filter (fun x => x ≠ id)) st.iovs }

/-- The `finally` block of `remove`: `delete this.pendingRemoval[id]`. -/
def IovCollection.removeUnmark (st : CollectionState) (id : Nat) :
    CollectionState :=
  { st with
      pendingRemoval := Option.map (fun pr => pr.filter (fun x => x ≠ id)) st.pendingRemoval }

/-- `IovCollection.remove`, translated from the source: `get` (via
`has`) the session — if absent, return success untouched; otherwise mark
the id in `pendingRemoval`, delete it from `iovs`, await the session's
`destroy` (whose error, flagged by `destroyThrows`, is caught and
logged), and in all cases clear the `pendingRemoval` mark in the
`finally` block. -/
def IovCollection.remove (st : CollectionState) (id : Nat)
    (destroyThrows : Bool) : CollectionState × Except JsError Unit :=
  match IovCollection.has st id with
  | .error e => (st, .error e)
  | .ok false => (st, .ok ())
  | .ok true =>
      let st1 := IovCollection.removeMark st id
      let st2 := IovCollection.removeDelete st1 id
      let st3 := IovCollection.removeUnmark st2 id
      (st3, .ok ())

/-- `IovCollection.destroy`, translated from the source: return if
already destroyed; set `isDestroyed`; `remove` every current id (errors
caught and logged); null both maps; set `isDestroyComplete`.  `dT` lists
the ids whose session destroy throws. -/
def IovCollection.destroy (st : CollectionState) (dT : List Nat) :
    CollectionState :=
  if st.isDestroyed then st
  else
    let st1 : CollectionState := { st with isDestroyed := true }
    let ids := match st1.iovs with
      | none => []
      | some m => m
    let st2 := ids.foldl
      (fun acc id => (IovCollection.remove acc id (decide (id ∈ dT))).1) st1
    { st2 with
        iovs := none
        pendingRemoval := none
        isDestroyComplete := true }

/-- The registry operations a client can issue. -/
inductive Op where
  | createOp
  | removeOp (id : Nat) (destroyThrows : Bool)
  | destroyOp (dT : List Nat)
deriving DecidableEq, Repr

/-- Apply one registry operation, keeping only the state. -/
def applyOp (st : CollectionState) (op : Op) : CollectionState :=
  match op with
  | .createOp => (IovCollection.create st).1
  | .removeOp id b => (IovCollection.remove st id b).1
  | .destroyOp dT => IovCollection.destroy st dT

/-- The registry state reached from construction by a sequence of
operations. -/
def runOps (ops : List Op) : CollectionState :=
  ops.foldl applyOp initialCollection

/-- One step of the run that also records every id handed out by
`create` (the id is captured from `++totalIovCount` before `add` can
throw, so it is recorded unconditionally). -/
def allocStep (p : CollectionState × List Nat) (op : Op) :
    CollectionState × List Nat :=
  match op with
  | .createOp => ((IovCollection.create p.1).1, p.2 ++ [p.1.counter + 1])
  | .removeOp id b => ((IovCollection.remove p.1 id b).1, p.2)
  | .destroyOp dT => (IovCollection.destroy p.1 dT, p.2)

/-- Run a sequence of registry operations from construction, collecting
the allocated session ids in order. -/
def runAlloc (ops : List Op) : CollectionState × List Nat :=
  ops.foldl allocStep (initialCollection, [])

/-- A session on which destruction has begun. -/
def iovDestroyed : IovState :=
  { iovFresh with isDestroyed := true }

/-- Invariant holding at every reachable registry state: the
`pendingRemoval` map is empty between operations; every id in `iovs` is
positive and at most the counter; after destruction both maps are
nulled; before destruction both maps exist. -/
structure CollInv (st : CollectionState) : Prop where
  pr_nil : ∀ pr, st.pendingRemoval = some pr → pr = []
  ids_bound : ∀ m, st.iovs = some m → ∀ a ∈ m, 1 ≤ a ∧ a ≤ st.counter
  destroyed_none : st.isDestroyed = true →
    st.iovs = none ∧ st.pendingRemoval = none
  live_some : st.isDestroyed = false →
    (∃ m, st.iovs = some m) ∧ (∃ pr, st.pendingRemoval = some pr)

/-- Invariant carried by the allocation-recording run: every id handed
out so far is bounded by the counter, and the ids are strictly
increasing. -/
def AllocInv (p : CollectionState × List Nat) : Prop :=
  (∀ a ∈ p.2, a ≤ p.1.counter) ∧ p.2.Pairwise (· < ·)

/-- `Gone id st`: the id is bounded by the counter and absent from the
sessions map — the condition preserved by every operation once a removal
has completed. -/
def Gone (id : Nat) (st : CollectionState) : Prop :=
  id ≤ st.counter ∧ ∀ m, st.iovs = some m → id ∉ m

theorem firstFrameRun_no_match (P : Nat) (events : List FFEvent)
    (h : ∀ e ∈ events, e.id ≠ P) : firstFrameRun P events = .pending := by
  induction events with
  | nil => rfl
  | cons e es ih =>
      have he : e.id ≠ P := h e (List.mem_cons_self e es)
      have hstep : firstFrameStep P .pending e = .pending := by
        simp [firstFrameStep, he]
      have : firstFrameRun P (e :: es) = firstFrameRun P es := by
        simp [firstFrameRun, List.foldl_cons, hstep]
      rw [this]
      exact ih (fun x hx => h x (List.mem_cons_of_mem e hx))

/-- Claim C1: once `changeSrc` has created a player and captured its id
`P`, the promise it returns stays pending as long as every delivered
FIRST_FRAME_SHOWN event carries an id other than `P`: such events cause
neither resolution nor rejection. -/
theorem changeSrc_ignores_other_players_first_frames
    (s : IovState) (arg : SrcArg) (hidden : Bool) (co : CreateOutcome)
    (P : Nat) (events : List FFEvent)
    (hP : (Iov.changeSrc s arg hidden co).result = .awaitingFirstFrame P)
    (hne : ∀ e ∈ events, e.id ≠ P) :
    Iov.changeSrcAwait s arg hidden co events = .stillPending := by
  unfold Iov.changeSrcAwait
  rw [hP]
  show (match firstFrameRun P events with
    | PromiseState.pending => ChangeSrcFinal.stillPending
    | PromiseState.resolved => ChangeSrcFinal.resolvedAfterFrame
    | PromiseState.rejected => ChangeSrcFinal.rejectedAfterFrame)
      = ChangeSrcFinal.stillPending
  rw [firstFrameRun_no_match P events hne]

/-- Witness for C1 at a concrete input: a fresh session, a valid url, a
player created with id 7, and two foreign first-frame events. -/
theorem changeSrc_ignores_other_players_first_frames_witness :
    Iov.changeSrcAwait iovFresh (SrcArg.urlStr "clsp://host/stream") false
      (CreateOutcome.ok (some 7))
      [{ id := 3, destroyedAtDelivery := false },
       { id := 5, destroyedAtDelivery := true }] = .stillPending := by
  exact changeSrc_ignores_other_players_first_frames iovFresh
    (SrcArg.urlStr "clsp://host/stream") false (CreateOutcome.ok (some 7)) 7
    [{ id := 3, destroyedAtDelivery := false },
     { id := 5, destroyedAtDelivery := true }]
    (by decide) (by decide)

/-- Counterexample to claim C2: on a destroyed session, `changeSrc`
with a valid url resolves early with success — it does not reject, and
in particular not with AlreadyDestroyed. -/
theorem changeSrc_on_destroyed_returns_success :
    (Iov.changeSrc iovDestroyed (SrcArg.urlStr "clsp://host/stream") false
        (CreateOutcome.ok (some 1))).result = ChangeSrcResult.resolvedEarly
    ∧ (Iov.changeSrc iovDestroyed (SrcArg.urlStr "clsp://host/stream") false
        (CreateOutcome.ok (some 1))).result
      ≠ ChangeSrcResult.threw JsError.alreadyDestroyed := by
  decide

/-- Claim C2 (amended): on a session on which destruction has begun,
`changeSrc` logs and returns immediately with success, leaving the state
untouched and creating no player; it does not reject. -/
theorem changeSrc_on_destroyed_noop (s : IovState) (arg : SrcArg)
    (hidden : Bool) (co : CreateOutcome) (hd : s.isDestroyed = true) :
    Iov.changeSrc s arg hidden co
      = { state := s, result := .resolvedEarly, createCalled := false } := by
  simp [Iov.changeSrc, hd]

/-- Witness for the amended C2 at a concrete destroyed session. -/
theorem changeSrc_on_destroyed_noop_witness :
    Iov.changeSrc iovDestroyed (SrcArg.urlStr "clsp://a/b") false
        CreateOutcome.throws
      = { state := iovDestroyed, result := .resolvedEarly,
          createCalled := false } :=
  changeSrc_on_destroyed_noop iovDestroyed (SrcArg.urlStr "clsp://a/b") false
    CreateOutcome.throws rfl

/-- Claim C3: evaluation of the online branch of `onConnectionChange` —
the handler awaits `restart()` immediately; no sleep action of any
duration precedes it, even though `CONNECTION_CHANGE_PLAY_DELAY` is
initialized to its default of 5 in the constructor.  This exhibits the
divergence from the claimed 5-second delay. -/
theorem onConnectionChange_online_no_sleep :
    (∀ s : IovState, Iov.onConnectionChange s true = [ConnAction.restartCall])
    ∧ (∀ (s : IovState) (d : Nat),
        ConnAction.sleepCall d ∉ Iov.onConnectionChange s true)
    ∧ iovFresh.connectionChangePlayDelay = 5 := by
  refine ⟨fun s => rfl, fun s d => ?_, rfl⟩
  simp [Iov.onConnectionChange]

/-- Claim C8: `changeSrc` on a live session with a non-empty url while
the document is hidden returns success, never calls the player
collection, and still commits the parsed configuration to
`streamConfiguration`. -/
theorem changeSrc_hidden_updates_config_without_player
    (s : IovState) (u : String) (co : CreateOutcome)
    (hd : s.isDestroyed = false) (hu : u ≠ "") :
    Iov.changeSrc s (SrcArg.urlStr u) true co
      = { state :=
            { s with streamConfiguration := some (StreamConfig.fromUrl u) }
          result := ChangeSrcResult.resolvedEarly
          createCalled := false } := by
  simp [Iov.changeSrc, hd, SrcArg.isFalsy, hu, SrcArg.toConfig]

/-- Witness for C8 at a concrete fresh session and url. -/
theorem changeSrc_hidden_updates_config_without_player_witness :
    Iov.changeSrc iovFresh (SrcArg.urlStr "clsp://host/stream") true
        CreateOutcome.throws
      = { state := { iovFresh with streamConfiguration := some (StreamConfig.fromUrl "clsp://host/stream") }
          result := ChangeSrcResult.resolvedEarly
          createCalled := false } :=
  changeSrc_hidden_updates_config_without_player iovFresh
    "clsp://host/stream" CreateOutcome.throws rfl (by decide)

/-- Claim C10: when player creation throws during `changeSrc` on a live
visible session, the error propagates, yet `streamConfiguration` already
holds the configuration parsed from the url (no rollback), and the
registry's retry path (`pendingChangeSrcStreamConfiguration ||
streamConfiguration`) reads exactly this updated value. -/
theorem changeSrc_create_error_config_not_rolled_back
    (s : IovState) (u : String)
    (hd : s.isDestroyed = false) (hu : u ≠ "")
    (hp : s.pendingChangeSrcStreamConfiguration = none) :
    (Iov.changeSrc s (SrcArg.urlStr u) false CreateOutcome.throws).result
        = ChangeSrcResult.threw JsError.createError
    ∧ (Iov.changeSrc s (SrcArg.urlStr u) false
          CreateOutcome.throws).state.streamConfiguration
        = some (StreamConfig.fromUrl u)
    ∧ IovCollection.retryConfig
          (Iov.changeSrc s (SrcArg.urlStr u) false CreateOutcome.throws).state
        = some (StreamConfig.fromUrl u) := by
  have h1 : Iov.changeSrc s (SrcArg.urlStr u) false CreateOutcome.throws
      = { state :=
            { s with streamConfiguration := some (StreamConfig.fromUrl u) }
          result := .threw .createError
          createCalled := true } := by
    simp [Iov.changeSrc, hd, SrcArg.isFalsy, hu, SrcArg.toConfig]
  rw [h1]
  refine ⟨rfl, rfl, ?_⟩
  simp [IovCollection.retryConfig, hp]

/-- Witness for C10 at a concrete fresh session and url. -/
theorem changeSrc_create_error_config_not_rolled_back_witness :
    (Iov.changeSrc iovFresh (SrcArg.urlStr "clsp://host/stream") false
        CreateOutcome.throws).result
        = ChangeSrcResult.threw JsError.createError
    ∧ (Iov.changeSrc iovFresh (SrcArg.urlStr "clsp://host/stream") false
          CreateOutcome.throws).state.streamConfiguration
        = some (StreamConfig.fromUrl "clsp://host/stream")
    ∧ IovCollection.retryConfig
          (Iov.changeSrc iovFresh (SrcArg.urlStr "clsp://host/stream") false
            CreateOutcome.throws).state
        = some (StreamConfig.fromUrl "clsp://host/stream") :=
  changeSrc_create_error_config_not_rolled_back iovFresh "clsp://host/stream"
    rfl (by decide) rfl

/-- Counterexample to claim C9: on a fresh session, entering `stop` sets
`isStopping` to true, and the `finally` block of the same `stop` call —
a later point of execution — sets it back to false, so `isStopping` is
not monotonic.  Stated over the session step machine. -/
theorem isStopping_reset_by_stop :
    (applySessOp iovFresh SessOp.stopBeginOp).isStopping = true
    ∧ (applySessOp (applySessOp iovFresh SessOp.stopBeginOp)
        SessOp.stopEndOp).isStopping = false := by
  decide

theorem changeSrc_state_flags (s : IovState) (arg : SrcArg) (hidden : Bool)
    (co : CreateOutcome) :
    (Iov.changeSrc s arg hidden co).state.isDestroyed = s.isDestroyed
    ∧ (Iov.changeSrc s arg hidden co).state.isDestroyComplete
        = s.isDestroyComplete := by
  rcases co with _ | (_ | pid)
  all_goals cases hD : s.isDestroyed
  all_goals cases hF : SrcArg.isFalsy arg
  all_goals cases hH : hidden
  all_goals simp only [Iov.changeSrc, hD, hF, hH, Bool.false_eq_true,
    if_false, if_true, ite_true, ite_false]
  all_goals try trivial
  all_goals split
  all_goals trivial

theorem applySessOp_destroyed_mono (s : IovState) (op : SessOp) :
    (s.isDestroyed = true → (applySessOp s op).isDestroyed = true)
    ∧ (s.isDestroyComplete = true →
        (applySessOp s op).isDestroyComplete = true) := by
  cases op with
  | stopBeginOp =>
      constructor <;> intro h <;>
        simp only [applySessOp, Iov.stopBegin] <;> split <;> (try exact h) <;>
          split <;> exact h
  | stopEndOp => exact ⟨fun h => h, fun h => h⟩
  | destroyBeginOp =>
      constructor <;> intro h <;>
        simp only [applySessOp, Destroyable.destroyBegin] <;> split <;>
          first
            | exact h
            | rfl
  | destroyEndOp => exact ⟨fun h => h, fun _ => rfl⟩
  | changeSrcOp arg hidden co =>
      refine ⟨fun h => ?_, fun h => ?_⟩
      · rw [applySessOp, (changeSrc_state_flags s arg hidden co).1]
        exact h
      · rw [applySessOp, (changeSrc_state_flags s arg hidden co).2]
        exact h

/-- Claim C9 (amended): `isDestroyed` and `isDestroyComplete` are
monotonic across every sequence of session steps; `isStopping` is not —
it is set at the start of `stop` and cleared again in the `finally`
block when that `stop` completes. -/
theorem destroyed_flags_monotonic (s : IovState) (ops : List SessOp) :
    (s.isDestroyed = true → (ops.foldl applySessOp s).isDestroyed = true)
    ∧ (s.isDestroyComplete = true →
        (ops.foldl applySessOp s).isDestroyComplete = true) := by
  induction ops generalizing s with
  | nil => exact ⟨fun h => h, fun h => h⟩
  | cons op rest ih =>
      constructor <;> intro h <;> rw [List.foldl_cons]
      · exact (ih (applySessOp s op)).1 ((applySessOp_destroyed_mono s op).1 h)
      · exact (ih (applySessOp s op)).2 ((applySessOp_destroyed_mono s op).2 h)

/-- Witness for the amended C9: a destroyed-and-complete session keeps
both flags through a concrete sequence of steps. -/
theorem destroyed_flags_monotonic_witness :
    ([SessOp.stopBeginOp, SessOp.stopEndOp,
        SessOp.destroyBeginOp].foldl applySessOp
      { iovDestroyed with isDestroyComplete := true }).isDestroyed = true
    ∧ ([SessOp.stopBeginOp, SessOp.stopEndOp,
        SessOp.destroyBeginOp].foldl applySessOp
      { iovDestroyed with isDestroyComplete := true }).isDestroyComplete
        = true := by
  have h := destroyed_flags_monotonic
    { iovDestroyed with isDestroyComplete := true }
    [SessOp.stopBeginOp, SessOp.stopEndOp, SessOp.destroyBeginOp]
  exact ⟨h.1 rfl, h.2 rfl⟩

theorem remove_fst_counter (st : CollectionState) (id : Nat) (b : Bool) :
    ((IovCollection.remove st id b).1).counter = st.counter := by
  unfold IovCollection.remove
  rcases h : IovCollection.has st id with e | fl
  · rfl
  · cases fl
    · rfl
    · simp only [IovCollection.removeMark, IovCollection.removeDelete,
        IovCollection.removeUnmark]

theorem foldl_remove_counter (ids : List Nat) (dT : List Nat) :
    ∀ st : CollectionState,
      (ids.foldl
        (fun acc id => (IovCollection.remove acc id (decide (id ∈ dT))).1)
        st).counter = st.counter := by
  induction ids with
  | nil => intro st; rfl
  | cons a l ih =>
      intro st
      rw [List.foldl_cons, ih, remove_fst_counter]

theorem destroy_counter (st : CollectionState) (dT : List Nat) :
    (IovCollection.destroy st dT).counter = st.counter := by
  unfold IovCollection.destroy
  split
  · rfl
  · simp only [foldl_remove_counter]

theorem create_fst_counter (st : CollectionState) :
    ((IovCollection.create st).1).counter = st.counter + 1 := by
  simp only [IovCollection.create]
  split
  · rfl
  · rcases h : IovCollection.has { st with counter := st.counter + 1 }
        (st.counter + 1) with e | fl
    · simp [h]
    · cases fl
      · rcases h2 : st.iovs with _ | m <;> simp [h, h2]
      · simp [h]

theorem remove_fst_isDestroyed (st : CollectionState) (id : Nat) (b : Bool) :
    ((IovCollection.remove st id b).1).isDestroyed = st.isDestroyed := by
  unfold IovCollection.remove
  rcases h : IovCollection.has st id with e | fl
  · rfl
  · cases fl
    · rfl
    · simp only [IovCollection.removeMark, IovCollection.removeDelete,
        IovCollection.removeUnmark]

theorem foldl_remove_isDestroyed (ids : List Nat) (dT : List Nat) :
    ∀ st : CollectionState,
      (ids.foldl
        (fun acc id => (IovCollection.remove acc id (decide (id ∈ dT))).1)
        st).isDestroyed = st.isDestroyed := by
  induction ids with
  | nil => intro st; rfl
  | cons a l ih =>
      intro st
      rw [List.foldl_cons, ih, remove_fst_isDestroyed]

theorem has_zero (st : CollectionState) :
    IovCollection.has st 0 = .ok false := by
  unfold IovCollection.has
  simp

theorem has_of_pending (st : CollectionState) (id : Nat) (pr : List Nat)
    (hpr : st.pendingRemoval = some pr) (hip : id ∈ pr) :
    IovCollection.has st id = .ok false := by
  unfold IovCollection.has
  by_cases h0 : id = 0
  · simp [h0]
  · simp [h0, hpr, hip]

theorem has_eval (st : CollectionState) (id : Nat) (pr m : List Nat)
    (h0 : id ≠ 0) (hpr : st.pendingRemoval = some pr)
    (hio : st.iovs = some m) (hnp : id ∉ pr) :
    IovCollection.has st id = .ok (decide (id ∈ m)) := by
  unfold IovCollection.has
  simp [h0, hpr, hnp, hio]

theorem has_none_pending (st : CollectionState) (id : Nat)
    (h0 : id ≠ 0) (hpr : st.pendingRemoval = none) :
    IovCollection.has st id = .error .typeError := by
  unfold IovCollection.has
  simp [h0, hpr]

theorem remove_eq_of_absent (st : CollectionState) (id : Nat) (b : Bool)
    (pr m : List Nat) (hpr : st.pendingRemoval = some pr)
    (hio : st.iovs = some m) (hnp : id ∉ pr) (hnm : id ∉ m) :
    IovCollection.remove st id b = (st, .ok ()) := by
  unfold IovCollection.remove
  by_cases h0 : id = 0
  · subst h0; rw [has_zero]
  · rw [has_eval st id pr m h0 hpr hio hnp]
    simp [hnm]

theorem remove_eq_of_present (st : CollectionState) (id : Nat) (b : Bool)
    (pr m : List Nat) (h0 : id ≠ 0) (hpr : st.pendingRemoval = some pr)
    (hio : st.iovs = some m) (hnp : id ∉ pr) (him : id ∈ m) :
    IovCollection.remove st id b
      = ({ st with
            iovs := some (m.filter (fun x => x ≠ id))
            pendingRemoval := some ((pr ++ [id]).filter (fun x => x ≠ id)) },
          .ok ()) := by
  unfold IovCollection.remove
  rw [has_eval st id pr m h0 hpr hio hnp]
  simp [him, IovCollection.removeMark, IovCollection.removeDelete,
    IovCollection.removeUnmark, hpr, hio]

theorem create_eq_of_none_pending (st : CollectionState)
    (hpr : st.pendingRemoval = none) :
    IovCollection.create st
      = ({ st with counter := st.counter + 1 }, .error .typeError) := by
  simp only [IovCollection.create]
  have hhas : IovCollection.has { st with counter := st.counter + 1 }
      (st.counter + 1) = .error .typeError :=
    has_none_pending _ _ (Nat.succ_ne_zero _) (by simp [hpr])
  simp [hhas]

theorem create_eq_of_live (st : CollectionState) (m : List Nat)
    (hpr : st.pendingRemoval = some []) (hio : st.iovs = some m)
    (hnm : st.counter + 1 ∉ m) :
    IovCollection.create st
      = ({ st with
            counter := st.counter + 1
            iovs := some (m ++ [st.counter + 1]) },
          .ok (st.counter + 1)) := by
  simp only [IovCollection.create]
  have hhas : IovCollection.has { st with counter := st.counter + 1 }
      (st.counter + 1) = .ok false := by
    rw [has_eval _ _ [] m (Nat.succ_ne_zero _) (by simp [hpr]) (by simp [hio])
      (by simp)]
    simp [hnm]
  simp [hhas]
  simp [hio]

theorem collInv_initial : CollInv initialCollection := by
  refine ⟨?_, ?_, ?_, ?_⟩
  · intro pr h
    simp [initialCollection] at h
    exact h
  · intro m h a ha
    simp [initialCollection] at h
    subst h
    simp at ha
  · intro h
    simp [initialCollection] at h
  · intro _
    exact ⟨⟨[], rfl⟩, ⟨[], rfl⟩⟩

theorem collInv_create (st : CollectionState) (h : CollInv st) :
    CollInv (IovCollection.create st).1 := by
  cases hd : st.isDestroyed
  · obtain ⟨⟨m, hio⟩, ⟨pr, hpr⟩⟩ := h.live_some hd
    have hpr0 : pr = [] := h.pr_nil pr hpr
    subst hpr0
    have hnm : st.counter + 1 ∉ m := by
      intro hin
      have := (h.ids_bound m hio (st.counter + 1) hin).2
      omega
    rw [create_eq_of_live st m hpr hio hnm]
    refine ⟨?_, ?_, ?_, ?_⟩
    · intro pr2 hpr2
      simp [hpr] at hpr2
      exact hpr2
    · intro m2 hm2 a ha
      simp at hm2
      rw [hm2.symm] at ha
      simp only
      rcases List.mem_append.1 ha with hin | hin
      · have := h.ids_bound m hio a hin
        omega
      · simp at hin
        omega
    · intro hd2
      simp at hd2
      rw [hd] at hd2
      cases hd2
    · intro _
      exact ⟨⟨m ++ [st.counter + 1], by simp⟩, ⟨[], by simp [hpr]⟩⟩
  · have hpr : st.pendingRemoval = none := (h.destroyed_none hd).2
    have hio : st.iovs = none := (h.destroyed_none hd).1
    rw [create_eq_of_none_pending st hpr]
    refine ⟨?_, ?_, ?_, ?_⟩
    · intro pr2 hpr2
      simp [hpr] at hpr2
    · intro m2 hm2
      simp [hio] at hm2
    · intro _
      simp [hio, hpr]
    · intro hd2
      simp at hd2
      rw [hd] at hd2
      cases hd2

theorem collInv_remove (st : CollectionState) (id : Nat) (b : Bool)
    (h : CollInv st) : CollInv (IovCollection.remove st id b).1 := by
  by_cases h0 : id = 0
  · subst h0
    have : IovCollection.remove st 0 b = (st, .ok ()) := by
      unfold IovCollection.remove
      rw [has_zero]
    rw [this]
    exact h
  · rcases hpr : st.pendingRemoval with _ | pr
    · have : IovCollection.remove st id b = (st, .error .typeError) := by
        unfold IovCollection.remove
        rw [has_none_pending st id h0 hpr]
      rw [this]
      exact h
    · have hpr0 : pr = [] := h.pr_nil pr hpr
      subst hpr0
      rcases hio : st.iovs with _ | m
      · have hhas : IovCollection.has st id = .error .typeError := by
          unfold IovCollection.has
          simp [h0, hpr, hio]
        have : IovCollection.remove st id b = (st, .error .typeError) := by
          unfold IovCollection.remove
          rw [hhas]
        rw [this]
        exact h
      · by_cases him : id ∈ m
        · rw [remove_eq_of_present st id b [] m h0 hpr hio (by simp) him]
          refine ⟨?_, ?_, ?_, ?_⟩
          · intro pr2 hpr2
            simp at hpr2
            exact hpr2
          · intro m2 hm2 a ha
            simp at hm2
            rw [hm2.symm] at ha
            have ham : a ∈ m := List.mem_of_mem_filter ha
            have := h.ids_bound m hio a ham
            simp only
            omega
          · intro hd2
            simp at hd2
            have := (h.destroyed_none hd2).1
            rw [hio] at this
            cases this
          · intro _
            exact ⟨⟨_, rfl⟩, ⟨_, rfl⟩⟩
        · rw [remove_eq_of_absent st id b [] m hpr hio (by simp) him]
          exact h

theorem collInv_destroy (st : CollectionState) (dT : List Nat)
    (h : CollInv st) : CollInv (IovCollection.destroy st dT) := by
  unfold IovCollection.destroy
  split
  · exact h
  · refine ⟨?_, ?_, ?_, ?_⟩
    · intro pr hpr
      simp at hpr
    · intro m hm
      simp at hm
    · intro _
      exact ⟨rfl, rfl⟩
    · intro hd2
      simp [foldl_remove_isDestroyed] at hd2

theorem collInv_applyOp (st : CollectionState) (op : Op) (h : CollInv st) :
    CollInv (applyOp st op) := by
  cases op with
  | createOp => exact collInv_create st h
  | removeOp id b => exact collInv_remove st id b h
  | destroyOp dT => exact collInv_destroy st dT h

theorem collInv_foldl (ops : List Op) :
    ∀ st : CollectionState, CollInv st → CollInv (ops.foldl applyOp st) := by
  induction ops with
  | nil => intro st h; exact h
  | cons op rest ih =>
      intro st h
      rw [List.foldl_cons]
      exact ih (applyOp st op) (collInv_applyOp st op h)

theorem collInv_runOps (ops : List Op) : CollInv (runOps ops) :=
  collInv_foldl ops initialCollection collInv_initial

theorem applyOp_counter_le (st : CollectionState) (op : Op) :
    st.counter ≤ (applyOp st op).counter := by
  cases op with
  | createOp => rw [applyOp, create_fst_counter]; omega
  | removeOp id b => rw [applyOp, remove_fst_counter]
  | destroyOp dT => rw [applyOp, destroy_counter]

theorem gone_applyOp (id : Nat) (st : CollectionState) (op : Op)
    (h : Gone id st) : Gone id (applyOp st op) := by
  obtain ⟨hle, hnm⟩ := h
  cases op with
  | createOp =>
      constructor
      · have := applyOp_counter_le st Op.createOp
        exact le_trans hle this
      · intro m2 hm2 hin
        revert hm2
        show ((IovCollection.create st).1).iovs = some m2 → False
        simp only [IovCollection.create]
        split
        · intro hm2
          exact hnm m2 hm2 hin
        · rcases hhas : IovCollection.has
              { st with counter := st.counter + 1 } (st.counter + 1)
              with e | fl
          · simp only [hhas]
            intro hm2
            exact hnm m2 hm2 hin
          · cases fl
            · simp only [hhas]
              rcases hio : st.iovs with _ | m
              · simp [hio]
              · simp [hio]
                intro hm2
                rw [hm2.symm] at hin
                rcases List.mem_append.1 hin with hin2 | hin2
                · exact hnm m (by rw [hio]) hin2
                · simp at hin2
                  omega
            · simp only [hhas]
              intro hm2
              exact hnm m2 hm2 hin
  | removeOp rid b =>
      constructor
      · rw [applyOp, remove_fst_counter]; exact hle
      · intro m2 hm2 hin
        revert hm2
        show ((IovCollection.remove st rid b).1).iovs = some m2 → False
        unfold IovCollection.remove
        rcases hhas : IovCollection.has st rid with e | fl
        · intro hm2
          exact hnm m2 hm2 hin
        · cases fl
          · intro hm2
            exact hnm m2 hm2 hin
          · simp only [IovCollection.removeMark, IovCollection.removeDelete,
              IovCollection.removeUnmark]
            rcases hio : st.iovs with _ | m
            · simp [hio]
            · simp [hio]
              intro hm2
              rw [hm2.symm] at hin
              exact hnm m (by rw [hio]) (List.mem_of_mem_filter hin)
  | destroyOp dT =>
      constructor
      · rw [applyOp, destroy_counter]; exact hle
      · intro m2 hm2 hin
        revert hm2
        show (IovCollection.destroy st dT).iovs = some m2 → False
        unfold IovCollection.destroy
        split
        · intro hm2
          exact hnm m2 hm2 hin
        · simp

theorem gone_foldl (id : Nat) (ops : List Op) :
    ∀ st : CollectionState, Gone id st → Gone id (ops.foldl applyOp st) := by
  induction ops with
  | nil => intro st h; exact h
  | cons op rest ih =>
      intro st h
      rw [List.foldl_cons]
      exact ih (applyOp st op) (gone_applyOp id st op h)

/-- Claim C4: `has` returns false for any id marked in `pendingRemoval`;
on reachable registry states it otherwise answers exactly membership in
the sessions map; and once a `remove` of a present id has completed, the
id never reappears in the sessions map under any further operations. -/
theorem has_respects_pendingRemoval :
    (∀ (st : CollectionState) (id : Nat) (pr : List Nat),
        st.pendingRemoval = some pr → id ∈ pr →
        IovCollection.has st id = .ok false)
    ∧ (∀ (ops : List Op) (id : Nat) (m pr : List Nat),
        (runOps ops).iovs = some m →
        (runOps ops).pendingRemoval = some pr → id ∉ pr →
        IovCollection.has (runOps ops) id = .ok (decide (id ∈ m)))
    ∧ (∀ (ops : List Op) (id : Nat) (b : Bool) (m : List Nat),
        (runOps ops).iovs = some m → id ∈ m →
        ∀ (more : List Op) (m2 : List Nat),
          (more.foldl applyOp
            (IovCollection.remove (runOps ops) id b).1).iovs = some m2 →
          id ∉ m2) := by
  refine ⟨?_, ?_, ?_⟩
  · intro st id pr hpr hip
    exact has_of_pending st id pr hpr hip
  · intro ops id m pr hio hpr hnp
    have hinv := collInv_runOps ops
    by_cases h0 : id = 0
    · subst h0
      rw [has_zero]
      have : (0 : Nat) ∉ m := by
        intro hin
        have := (hinv.ids_bound m hio 0 hin).1
        omega
      simp [this]
    · exact has_eval (runOps ops) id pr m h0 hpr hio hnp
  · intro ops id b m hio him more m2 hm2
    have hinv := collInv_runOps ops
    have hb := hinv.ids_bound m hio id him
    have h0 : id ≠ 0 := by omega
    have hnd : (runOps ops).isDestroyed = false := by
      cases hd : (runOps ops).isDestroyed
      · rfl
      · have := (hinv.destroyed_none hd).1
        rw [hio] at this
        cases this
    obtain ⟨_, ⟨pr, hpr⟩⟩ := hinv.live_some hnd
    have hpr0 : pr = [] := hinv.pr_nil pr hpr
    subst hpr0
    have hrem := remove_eq_of_present (runOps ops) id b [] m h0 hpr hio
      (by simp) him
    have hgone : Gone id (IovCollection.remove (runOps ops) id b).1 := by
      rw [hrem]
      constructor
      · simp only
        omega
      · intro m3 hm3 hin3
        simp at hm3
        rw [hm3.symm] at hin3
        rcases List.mem_filter.1 hin3 with ⟨_, hdec⟩
        simp at hdec
    have := (gone_foldl id more _ hgone).2 m2 hm2
    exact this

/-- Witness for C4: each component applied at concrete inputs — a state
with id 3 pending removal; a one-create run queried for id 1; and a
create-remove run followed by another create, after which id 1 is still
absent. -/
theorem has_respects_pendingRemoval_witness :
    IovCollection.has
        { counter := 3, iovs := some [3], pendingRemoval := some [3],
          isDestroyed := false, isDestroyComplete := false } 3 = .ok false
    ∧ IovCollection.has (runOps [Op.createOp]) 1 = .ok true
    ∧ (1 : Nat) ∉ [2] := by
  refine ⟨?_, ?_, ?_⟩
  · exact has_respects_pendingRemoval.1
      { counter := 3, iovs := some [3], pendingRemoval := some [3],
        isDestroyed := false, isDestroyComplete := false } 3 [3] rfl
      (by decide)
  · have := has_respects_pendingRemoval.2.1 [Op.createOp] 1 [1] [] (by decide)
      (by decide) (by decide)
    rw [this]
    rfl
  · exact has_respects_pendingRemoval.2.2 [Op.createOp] 1 false [1]
      (by decide) (by decide) [Op.createOp] [2] (by decide)

/-- Claim C5: `remove` on an id absent from live maps is a no-op that
returns success; on a present id it runs mark, delete, destroy, unmark
in that order (the marked state carries the id in `pendingRemoval`, the
deleted state no longer carries it in `iovs`, and the final state
carries it in neither), succeeds whether or not the session's destroy
throws, and a second `remove` of the same id is a no-op success. -/
theorem remove_idempotent_spec :
    (∀ (st : CollectionState) (id : Nat) (b : Bool) (pr m : List Nat),
        st.pendingRemoval = some pr → st.iovs = some m →
        id ∉ pr → id ∉ m →
        IovCollection.remove st id b = (st, .ok ()))
    ∧ (∀ (st : CollectionState) (id : Nat) (b : Bool) (pr m : List Nat),
        1 ≤ id → st.pendingRemoval = some pr → st.iovs = some m →
        id ∉ pr → id ∈ m →
        IovCollection.remove st id b
          = (IovCollection.removeUnmark
              (IovCollection.removeDelete (IovCollection.removeMark st id) id)
              id, .ok ())
        ∧ (∃ pr2, (IovCollection.removeMark st id).pendingRemoval = some pr2
            ∧ id ∈ pr2)
        ∧ (∀ m2, (IovCollection.removeDelete
              (IovCollection.removeMark st id) id).iovs = some m2 → id ∉ m2)
        ∧ (∀ pr3, ((IovCollection.remove st id b).1).pendingRemoval = some pr3
            → id ∉ pr3))
    ∧ (∀ (st : CollectionState) (id : Nat) (b b2 : Bool) (pr m : List Nat),
        st.pendingRemoval = some pr → st.iovs = some m → id ∉ pr →
        IovCollection.remove (IovCollection.remove st id b).1 id b2
          = ((IovCollection.remove st id b).1, .ok ())) := by
  refine ⟨?_, ?_, ?_⟩
  · intro st id b pr m hpr hio hnp hnm
    exact remove_eq_of_absent st id b pr m hpr hio hnp hnm
  · intro st id b pr m h1 hpr hio hnp him
    have h0 : id ≠ 0 := by omega
    refine ⟨?_, ?_, ?_, ?_⟩
    · unfold IovCollection.remove
      rw [has_eval st id pr m h0 hpr hio hnp]
      simp [him]
    · refine ⟨pr ++ [id], ?_, by simp⟩
      simp [IovCollection.removeMark, hpr]
    · intro m2 hm2
      simp [IovCollection.removeDelete, IovCollection.removeMark, hio] at hm2
      rw [hm2.symm]
      intro hin
      rcases List.mem_filter.1 hin with ⟨_, hdec⟩
      simp at hdec
    · intro pr3 hpr3
      rw [remove_eq_of_present st id b pr m h0 hpr hio hnp him] at hpr3
      simp at hpr3
      rw [hpr3.symm]
      intro hin
      rcases List.mem_filter.1 hin with ⟨_, hdec⟩
      simp at hdec
  · intro st id b b2 pr m hpr hio hnp
    by_cases h0 : id = 0
    · subst h0
      have hz : IovCollection.remove st 0 b = (st, .ok ()) := by
        unfold IovCollection.remove
        rw [has_zero]
      rw [hz]
      exact hz.symm ▸ hz
    · by_cases him : id ∈ m
      · rw [remove_eq_of_present st id b pr m h0 hpr hio hnp him]
        refine remove_eq_of_absent _ id b2
          ((pr ++ [id]).filter (fun x => x ≠ id))
          (m.filter (fun x => x ≠ id)) rfl rfl ?_ ?_
        · intro hin
          rcases List.mem_filter.1 hin with ⟨_, hdec⟩
          simp at hdec
        · intro hin
          rcases List.mem_filter.1 hin with ⟨_, hdec⟩
          simp at hdec
      · rw [remove_eq_of_absent st id b pr m hpr hio hnp him]
        exact remove_eq_of_absent st id b2 pr m hpr hio hnp him

/-- Witness for C5 at concrete inputs: a two-session registry state from
which id 1 is removed (with the session destroy throwing), the phase
states observed, a second removal a no-op, and removal of the absent id
9 a no-op. -/
theorem remove_idempotent_spec_witness :
    IovCollection.remove (runOps [Op.createOp, Op.createOp]) 9 true
      = (runOps [Op.createOp, Op.createOp], .ok ())
    ∧ IovCollection.remove (runOps [Op.createOp, Op.createOp]) 1 true
      = (IovCollection.removeUnmark
          (IovCollection.removeDelete
            (IovCollection.removeMark (runOps [Op.createOp, Op.createOp]) 1) 1)
          1, .ok ())
    ∧ IovCollection.remove
        (IovCollection.remove (runOps [Op.createOp, Op.createOp]) 1 true).1
        1 false
      = ((IovCollection.remove (runOps [Op.createOp, Op.createOp]) 1 true).1,
          .ok ()) := by
  refine ⟨?_, ?_, ?_⟩
  · exact remove_idempotent_spec.1 (runOps [Op.createOp, Op.createOp]) 9 true
      [] [1, 2] (by decide) (by decide) (by decide) (by decide)
  · exact (remove_idempotent_spec.2.1 (runOps [Op.createOp, Op.createOp]) 1
      true [] [1, 2] (by decide) (by decide) (by decide) (by decide)
      (by decide)).1
  · exact remove_idempotent_spec.2.2 (runOps [Op.createOp, Op.createOp]) 1
      true false [] [1, 2] (by decide) (by decide) (by decide)

theorem allocInv_step (p : CollectionState × List Nat) (op : Op)
    (h : AllocInv p) : AllocInv (allocStep p op) := by
  obtain ⟨hb, hp⟩ := h
  cases op with
  | createOp =>
      constructor
      · intro a ha
        simp only [allocStep, create_fst_counter]
        rcases List.mem_append.1 ha with hin | hin
        · have := hb a hin
          omega
        · simp at hin
          omega
      · simp only [allocStep]
        rw [List.pairwise_append]
        refine ⟨hp, List.pairwise_singleton _ _, ?_⟩
        intro a ha c hc
        simp at hc
        have := hb a ha
        omega
  | removeOp id b =>
      refine ⟨?_, hp⟩
      intro a ha
      simp only [allocStep, remove_fst_counter]
      exact hb a ha
  | destroyOp dT =>
      refine ⟨?_, hp⟩
      intro a ha
      simp only [allocStep, destroy_counter]
      exact hb a ha

theorem allocInv_foldl (ops : List Op) :
    ∀ p : CollectionState × List Nat, AllocInv p →
      AllocInv (ops.foldl allocStep p) := by
  induction ops with
  | nil => intro p h; exact h
  | cons op rest ih =>
      intro p h
      rw [List.foldl_cons]
      exact ih (allocStep p op) (allocInv_step p op h)

/-- Claim C6: across every sequence of registry operations, the ids
handed out by `create` are strictly increasing — each is strictly
greater than every previously allocated id — hence no id is ever handed
out twice, even after a removal. -/
theorem session_ids_never_reused (ops : List Op) :
    ((runAlloc ops).2).Pairwise (· < ·) ∧ ((runAlloc ops).2).Nodup := by
  have h : AllocInv (runAlloc ops) := by
    have h0 : AllocInv (initialCollection, ([] : List Nat)) := by
      constructor
      · intro a ha
        simp at ha
      · exact List.Pairwise.nil
    exact allocInv_foldl ops (initialCollection, []) h0
  refine ⟨h.2, ?_⟩
  exact h.2.imp (fun hlt => Nat.ne_of_lt hlt)

/-- Counterexample to claim C7: on a registry holding one session,
`destroy()` followed by `create` fails with a TypeError (property access
on the nulled `pendingRemoval` map), not with an AlreadyDestroyed
error. -/
theorem create_after_destroy_typeError :
    (IovCollection.create
        (IovCollection.destroy (runOps [Op.createOp]) [])).2
      = .error .typeError
    ∧ (IovCollection.create
        (IovCollection.destroy (runOps [Op.createOp]) [])).2
      ≠ .error .alreadyDestroyed := by
  refine ⟨rfl, ?_⟩
  intro h
  have h2 : JsError.typeError = JsError.alreadyDestroyed := by
    have h3 : (Except.error JsError.typeError : Except JsError Nat)
        = .error .alreadyDestroyed := by
      rw [h.symm]
      rfl
    exact Except.error.inj h3
  cases h2

/-- Claim C7 (amended): after `destroy()` returns, the sessions map is
nulled (so it holds no sessions), and every subsequent `create` fails —
by throwing a TypeError when `add` touches the nulled maps, since
`create` has no destroyed-guard and no AlreadyDestroyed error exists on
this path. -/
theorem destroy_clears_sessions_and_create_fails (ops : List Op)
    (dT : List Nat) :
    (IovCollection.destroy (runOps ops) dT).iovs = none
    ∧ (IovCollection.create (IovCollection.destroy (runOps ops) dT)).2
        = .error .typeError := by
  have hinv := collInv_runOps ops
  have hd : (IovCollection.destroy (runOps ops) dT).iovs = none
      ∧ (IovCollection.destroy (runOps ops) dT).pendingRemoval = none := by
    unfold IovCollection.destroy
    split
    · next hdes => exact hinv.destroyed_none hdes
    · exact ⟨rfl, rfl⟩
  refine ⟨hd.1, ?_⟩
  rw [create_eq_of_none_pending _ hd.2]
